import Mathlib

/-!
# Verification of the stock-market dashboard core

A shallow embedding of `src/stock_dashboard.py` (indicator pipeline,
quote aggregation, ranking, and panel layout), with theorems checking the
natural-language specification against the code.

Modelling conventions:
* pandas `Series` of closing prices become `List ℚ`; a column that can hold
  `NaN` becomes `List (Option ℚ)` with `none` for `NaN` (an absent value).
* The floating-point square root inside `Series.rolling(20).std()` is the one
  numeric primitive with no rational counterpart, so `add_indicators` takes it
  as an explicit function argument `sq`; every theorem holds for all `sq`.
* The external data source (`yfinance`) is abstracted as an outcome value: a
  call either raises or returns data, and the `try/except` wrappers in the
  code are modelled by matching on that outcome.
* A Python statement that can raise an exception uncaught is modelled in a
  `PyResult` (value or exception escape).
-/

namespace StockDashboard

/-- Colour constant `GREEN` from the source. -/
def GREEN : String := "#2ca02c"

/-- Colour constant `RED` from the source. -/
def RED : String := "#d62728"

/-- The sign-based colour choice `GREEN if v >= 0 else RED`, repeated in the
source at the MACD histogram, the sector bars and the watchlist bars. -/
def colorOf (v : ℚ) : String := if 0 ≤ v then GREEN else RED

/-- A fetched OHLCV frame, reduced to the columns the code reads:
`Close` and `Volume`. -/
structure Frame where
  close  : List ℚ
  volume : List ℚ
deriving DecidableEq

/-- `Series.diff()`: first entry `NaN`, then successive differences. -/
def diffO : List ℚ → List (Option ℚ)
  | [] => []
  | x :: xs => none :: List.zipWith (fun a b => some (b - a)) (x :: xs) xs

/-- `Series.rolling(w).mean()` over a series that may contain `NaN`:
entry `i` is the mean of entries `i-w+1 .. i`, `NaN` when `i < w-1` or when
any entry of that window is `NaN`. -/
def rollingMeanO (w : Nat) (xs : List (Option ℚ)) : List (Option ℚ) :=
  (List.range xs.length).map (fun i =>
    if i + 1 < w then none
    else
      let win := (xs.take (i + 1)).drop (i + 1 - w)
      if win.all Option.isSome then some ((win.filterMap id).sum / w) else none)

/-- `Series.rolling(w).std()` before the square root: the sample variance
(pandas default `ddof=1`) of the trailing window, `NaN` for `i < w-1`. -/
def rollingVar (w : Nat) (xs : List ℚ) : List (Option ℚ) :=
  (List.range xs.length).map (fun i =>
    if i + 1 < w then none
    else
      let win := (xs.take (i + 1)).drop (i + 1 - w)
      let m := win.sum / w
      some ((win.map (fun x => (x - m) ^ 2)).sum / ((w : ℚ) - 1)))

/-- Accumulator form of pandas `Series.ewm(span=s).mean()` with the default
`adjust=True`: it keeps a weighted numerator and a weight total, both decayed
by `c = 1 - α` at each step, and emits their quotient. -/
def ewmAdjAux (c : ℚ) : List ℚ → ℚ → ℚ → List ℚ
  | [], _, _ => []
  | x :: rest, num, den =>
    (x + c * num) / (1 + c * den) :: ewmAdjAux c rest (x + c * num) (1 + c * den)

/-- pandas `Series.ewm(span=s).mean()` (default `adjust=True`) on a series
with no `NaN`, where `alpha = 2/(s+1)`. -/
def ewmAdj (alpha : ℚ) (xs : List ℚ) : List ℚ :=
  ewmAdjAux (1 - alpha) xs 0 0

/-- The rolling 14-mean of the clipped-positive daily differences,
`delta.clip(lower=0).rolling(14).mean()` in the source. -/
def gainCol (close : List ℚ) : List (Option ℚ) :=
  rollingMeanO 14 ((diffO close).map (Option.map (fun d => max d 0)))

/-- The rolling 14-mean of the negated clipped-negative daily differences,
`(-delta.clip(upper=0)).rolling(14).mean()` in the source. -/
def lossCol (close : List ℚ) : List (Option ℚ) :=
  rollingMeanO 14 ((diffO close).map (Option.map (fun d => max (-d) 0)))

/-- The dataframe returned by `add_indicators`, one field per column the
function writes (plus the `Close` column it reads). -/
structure IndFrame where
  close    : List ℚ
  ma20     : List (Option ℚ)
  ma50     : List (Option ℚ)
  ema12    : List ℚ
  ema26    : List ℚ
  macd     : List ℚ
  signal   : List ℚ
  bbMid    : List (Option ℚ)
  bbStd    : List (Option ℚ)
  bbUp     : List (Option ℚ)
  bbLo     : List (Option ℚ)
  rsi      : List (Option ℚ)
  volMA    : List (Option ℚ)
deriving DecidableEq

/-- `add_indicators` from the source.  `sq` abstracts the floating-point
square root used by `rolling(20).std()`; every other operation is exact. -/
def add_indicators (sq : ℚ → ℚ) (df : Frame) : IndFrame :=
  let close := df.close
  let ema12 := ewmAdj (2 / (12 + 1)) close
  let ema26 := ewmAdj (2 / (26 + 1)) close
  let macd := List.zipWith (fun a b => a - b) ema12 ema26
  let bbMid := rollingMeanO 20 (close.map some)
  let bbStd := (rollingVar 20 close).map (Option.map sq)
  { close := close
    ma20 := rollingMeanO 20 (close.map some)
    ma50 := rollingMeanO 50 (close.map some)
    ema12 := ema12
    ema26 := ema26
    macd := macd
    signal := ewmAdj (2 / (9 + 1)) macd
    bbMid := bbMid
    bbStd := bbStd
    bbUp := List.zipWith (fun m s =>
      match m, s with
      | some m, some s => some (m + 2 * s)
      | _, _ => none) bbMid bbStd
    bbLo := List.zipWith (fun m s =>
      match m, s with
      | some m, some s => some (m - 2 * s)
      | _, _ => none) bbMid bbStd
    rsi := List.zipWith (fun g l =>
      match g, l with
      | some g, some l => some (100 - 100 / (1 + g / (l + 1 / 1000000)))
      | _, _ => none) (gainCol close) (lossCol close)
    volMA := rollingMeanO 20 (df.volume.map some) }

/-! ## Fetching (`fetch_ticker`, `fetch_quote`) -/

/-- One row of `Ticker.history(period="2d")`, with the columns the code
reads: `Close`, `High`, `Low`, `Volume`. -/
structure Bar where
  closeP  : ℚ
  highP   : ℚ
  lowP    : ℚ
  volumeB : ℚ
deriving DecidableEq

instance : Inhabited Bar := ⟨⟨0, 0, 0, 0⟩⟩

/-- The quote snapshot dictionary returned by `fetch_quote`. -/
structure Quote where
  price  : ℚ
  change : ℚ
  pct    : ℚ
  volume : ℚ
  high   : ℚ
  low    : ℚ
  name   : String
deriving DecidableEq

/-- Outcome of one `yf.download` call: the call either raises or returns a
(possibly empty) frame. -/
inductive TickerSource where
  | raises
  | returns (df : Frame)
deriving DecidableEq

/-- Outcome of one `yf.Ticker(...)` interaction in `fetch_quote`: either some
step raises, or it yields the `shortName` field of `info` (absent when the
key is missing) and the rows of `history(period="2d")`. -/
inductive QuoteSource where
  | raises
  | returns (shortName : Option String) (hist : List Bar)
deriving DecidableEq

/-- Result of running a block of Python code: a value, or an exception
escaping the block. -/
inductive PyResult (α : Type) where
  | val (a : α)
  | exc
deriving DecidableEq

/-- `fetch_ticker`: empty data and exceptions both collapse to `None`. -/
def fetch_ticker (src : TickerSource) : Option Frame :=
  match src with
  | .raises => none
  | .returns df => if df.close.isEmpty then none else some df

/-- The `try`-block body of `fetch_quote`.  With fewer than two history rows
it returns `None`; otherwise it reads the last two closes, and the division
`chg / prev` raises `ZeroDivisionError` exactly when the previous close is
zero. -/
def fetch_quote_try (ticker : String) (src : QuoteSource) : PyResult (Option Quote) :=
  match src with
  | .raises => .exc
  | .returns shortName hist =>
    if hist.length < 2 then .val none
    else
      let prev := (hist.getD (hist.length - 2) default).closeP
      let curr := (hist.getD (hist.length - 1) default).closeP
      let chg := curr - prev
      if prev = 0 then .exc
      else
        .val (some
          { price := curr
            change := chg
            pct := chg / prev * 100
            volume := (hist.getD (hist.length - 1) default).volumeB
            high := (hist.getD (hist.length - 1) default).highP
            low := (hist.getD (hist.length - 1) default).lowP
            name := shortName.getD ticker })

/-- `fetch_quote`: the `try` body with its blanket `except Exception`
handler, which converts any escaping exception to `None`. -/
def fetch_quote (ticker : String) (src : QuoteSource) : Option Quote :=
  match fetch_quote_try ticker src with
  | .val q => q
  | .exc => none

/-! ## Ranking (the `sorted(zip(values, names, colors))` pattern) -/

/-- The sort key Python uses on the zipped `(value, name, color)` triples:
tuples compare lexicographically, numbers by value and strings by code
point. -/
def pyKey (t : ℚ × String × String) : ℚ ×ₗ String ×ₗ String :=
  toLex (t.1, toLex (t.2.1, t.2.2))

/-- Python's `<=` on `(value, name, color)` tuples. -/
def pyLe (a b : ℚ × String × String) : Prop := pyKey a ≤ pyKey b

instance : DecidableRel pyLe := fun a b =>
  inferInstanceAs (Decidable (pyKey a ≤ pyKey b))

instance : IsTotal (ℚ × String × String) pyLe :=
  ⟨fun a b => le_total (pyKey a) (pyKey b)⟩

instance : IsTrans (ℚ × String × String) pyLe :=
  ⟨fun _ _ _ h h' => le_trans h h'⟩

/-- Python's built-in `sorted` on `(value, name, color)` tuples.  `sorted`
is a stable ascending sort, and for a total transitive comparison every
stable sort produces the same list, so it is modelled by stable insertion
sort. -/
def pySorted (l : List (ℚ × String × String)) : List (ℚ × String × String) :=
  List.insertionSort pyLe l

/-- Zip a `name ↦ value` mapping into the `(value, name, color)` triples the
two bar-chart panels build, and sort them as the source does. -/
def rankTriples (pairs : List (String × ℚ)) : List (ℚ × String × String) :=
  pySorted (pairs.map (fun p => (p.2, p.1, colorOf p.2)))

/-- `winners = {k: v for k, v in quotes.items() if v is not None}` followed by
extracting each snapshot's `pct` field. -/
def winnersOf (quotes : List (String × Option Quote)) : List (String × ℚ) :=
  quotes.filterMap (fun p => p.2.map (fun q => (p.1, q.pct)))

/-- The ranking feeding the watchlist daily-change bar panel. -/
def rankQuotes (quotes : List (String × Option Quote)) : List (ℚ × String × String) :=
  rankTriples (winnersOf quotes)

/-! ## Layout composition (`build_dashboard`) -/

/-- The watchlist configuration, `name ↦ ticker`, in source order. -/
def WATCHLIST : List (String × String) :=
  [("Apple", "AAPL"), ("Microsoft", "MSFT"), ("NVIDIA", "NVDA"),
   ("Amazon", "AMZN"), ("Google", "GOOGL"), ("Tesla", "TSLA"),
   ("Meta", "META"), ("Netflix", "NFLX")]

/-- The index configuration. -/
def INDICES : List (String × String) :=
  [("S&P 500", "^GSPC"), ("NASDAQ", "^IXIC"), ("Dow Jones", "^DJI"),
   ("VIX", "^VIX")]

/-- The sector configuration. -/
def SECTORS : List (String × String) :=
  [("Technology", "XLK"), ("Healthcare", "XLV"), ("Financials", "XLF"),
   ("Energy", "XLE"), ("Consumer", "XLY"), ("Industrials", "XLI"),
   ("Utilities", "XLU"), ("Real Estate", "XLRE")]

/-- One run's external-world behaviour: the outcome of `fetch_quote`'s data
access per ticker, and of `fetch_ticker`'s download per ticker.  (Each ticker
is downloaded for at most one date range in the source, so the range is
dropped from the key.) -/
structure World where
  quoteSrc  : String → QuoteSource
  tickerSrc : String → TickerSource

/-- What one grid panel will draw: either a placeholder (blank axes, or the
scorecard `"N/A"` text) or a populated chart description. -/
inductive Render where
  | blank
  | na
  | score (name : String) (price change pct : ℚ) (color : String)
  | priceChart (df : IndFrame)
  | rsiChart (df : IndFrame)
  | macdChart (df : IndFrame) (histColors : List String)
  | stockChart (ticker : String) (df : IndFrame) (lineColor : String)
  | barh (rows : List (ℚ × String × String))
deriving DecidableEq

/-- A subplot on the 5×8 grid: its (single) row, its half-open column span,
and what it draws. -/
structure Panel where
  row    : Nat
  colLo  : Nat
  colHi  : Nat
  render : Render
deriving DecidableEq

/-- The grid cells a panel occupies, as `(row, colLo, colHi)`. -/
def Panel.pos (p : Panel) : Nat × Nat × Nat := (p.row, p.colLo, p.colHi)

/-- Two single-row cell ranges do not share a grid cell. -/
def cellDisjoint (a b : Nat × Nat × Nat) : Prop :=
  a.1 ≠ b.1 ∨ a.2.2 ≤ b.2.1 ∨ b.2.2 ≤ a.2.1

instance : DecidableRel cellDisjoint := fun a b =>
  inferInstanceAs (Decidable (a.1 ≠ b.1 ∨ a.2.2 ≤ b.2.1 ∨ b.2.2 ≤ a.2.1))

/-- `plot_scorecard`: a `None` quote renders the `"N/A"` placeholder, a
present quote renders the price with a sign-coloured percent change. -/
def plot_scorecard (name : String) (q : Option Quote) : Render :=
  match q with
  | none => .na
  | some q => .score name q.price q.change q.pct (if 0 ≤ q.change then GREEN else RED)

/-- The MACD histogram bar colours,
`[GREEN if v >= 0 else RED for v in (spy["MACD"] - spy["Signal"])]`. -/
def macdColors (df : IndFrame) : List String :=
  (List.zipWith (fun a b => a - b) df.macd df.signal).map colorOf

/-- The per-stock mini chart: line colour green when the last close is at
least the first close. -/
def stockRender (ticker : String) (df2 : IndFrame) : Render :=
  .stockChart ticker df2
    (if df2.close.headD 0 ≤ df2.close.getLastD 0 then GREEN else RED)

/-- The sector-performance loop of `build_dashboard`.  A fetch failure or a
too-short frame skips the sector; a successful frame whose first close is
zero makes the percent computation raise `ZeroDivisionError`, which nothing
in `build_dashboard` catches. -/
def sectorLoop (w : World) : List (String × String) → PyResult (List (String × ℚ))
  | [] => .val []
  | (n, t) :: rest =>
    match fetch_ticker (w.tickerSrc t) with
    | none => sectorLoop w rest
    | some df =>
      if df.close.length ≤ 1 then sectorLoop w rest
      else
        let startP := df.close.headD 0
        if startP = 0 then .exc
        else
          let endP := df.close.getLastD 0
          match sectorLoop w rest with
          | .exc => .exc
          | .val xs => .val ((n, (endP - startP) / startP * 100) :: xs)

/-- The panel-assembly part of `build_dashboard`, given the fetched quotes,
histories and sector performances (the code's local variables).  Every
`add_subplot` call becomes one `Panel`; a panel whose data did not resolve
keeps its grid cells and renders `blank` (nothing drawn into the axes) or
`na` (the scorecard placeholder). -/
def assemble (sq : ℚ → ℚ) (quotes idx_quotes : List (String × Option Quote))
    (spy_hist aapl_hist tsla_hist nvda_hist : Option Frame)
    (sector_perf : List (String × ℚ)) : List Panel :=
  let spy := spy_hist.map (add_indicators sq)
  let spPanels : List Panel :=
    [⟨0, 0, 3, match spy with | none => .blank | some s => .priceChart s⟩,
     ⟨1, 0, 3, match spy with | none => .blank | some s => .rsiChart s⟩,
     ⟨2, 0, 3, match spy with | none => .blank | some s => .macdChart s (macdColors s)⟩]
  let idxPanels : List Panel :=
    idx_quotes.enum.map (fun p => ⟨0, 3 + p.1, 4 + p.1, plot_scorecard p.2.1 p.2.2⟩)
  let stockPanels1 : List Panel :=
    (quotes.take 4).enum.map (fun p => ⟨1, 4 + p.1, 5 + p.1, plot_scorecard p.2.1 p.2.2⟩)
  let stockPanels2 : List Panel :=
    (quotes.drop 4).enum.map (fun p => ⟨2, 4 + p.1, 5 + p.1, plot_scorecard p.2.1 p.2.2⟩)
  let sectorPanel : Panel :=
    ⟨3, 0, 4, if sector_perf.isEmpty then .blank else .barh (rankTriples sector_perf)⟩
  let aaplPanel : Panel :=
    ⟨3, 4, 6, match aapl_hist with
              | none => .blank
              | some df => stockRender "AAPL" (add_indicators sq df)⟩
  let tslaPanel : Panel :=
    ⟨3, 6, 8, match tsla_hist with
              | none => .blank
              | some df => stockRender "TSLA" (add_indicators sq df)⟩
  let nvdaPanel : Panel :=
    ⟨4, 0, 4, match nvda_hist with
              | none => .blank
              | some df => stockRender "NVDA" (add_indicators sq df)⟩
  let winners := winnersOf quotes
  let volPanel : Panel :=
    ⟨4, 4, 8, if winners.isEmpty then .blank else .barh (rankTriples winners)⟩
  spPanels ++ idxPanels ++ stockPanels1 ++ stockPanels2
    ++ [sectorPanel, aaplPanel, tslaPanel, nvdaPanel, volPanel]

/-- `build_dashboard`: fetch everything (quotes, then history, then the
sector loop — the one place an exception can escape), then populate the
fixed 5×8 grid. -/
def build_dashboard (sq : ℚ → ℚ) (w : World) : PyResult (List Panel) :=
  match sectorLoop w SECTORS with
  | .exc => .exc
  | .val sector_perf =>
    .val (assemble sq
      (WATCHLIST.map (fun p => (p.1, fetch_quote p.2 (w.quoteSrc p.2))))
      (INDICES.map (fun p => (p.1, fetch_quote p.2 (w.quoteSrc p.2))))
      (fetch_ticker (w.tickerSrc "SPY")) (fetch_ticker (w.tickerSrc "AAPL"))
      (fetch_ticker (w.tickerSrc "TSLA")) (fetch_ticker (w.tickerSrc "NVDA"))
      sector_perf)

/-- The configured grid slots, in the order `build_dashboard` creates them:
the SPY/RSI/MACD column, four index scorecards, eight watchlist scorecards,
the sector bars, two stock mini charts, the NVDA chart, and the watchlist
bars. -/
def slots : List (Nat × Nat × Nat) :=
  [(0, 0, 3), (1, 0, 3), (2, 0, 3),
   (0, 3, 4), (0, 4, 5), (0, 5, 6), (0, 6, 7),
   (1, 4, 5), (1, 5, 6), (1, 6, 7), (1, 7, 8),
   (2, 4, 5), (2, 5, 6), (2, 6, 7), (2, 7, 8),
   (3, 0, 4), (3, 4, 6), (3, 6, 8),
   (4, 0, 4), (4, 4, 8)]

/-- No successfully fetched sector frame with more than one row starts at a
zero close (the one datum that would make `build_dashboard`'s sector loop
raise an uncaught `ZeroDivisionError`).  Every world in which the sector
fetches fail in any pattern satisfies this vacuously. -/
def sectorSafe (w : World) : Prop :=
  ∀ p ∈ SECTORS, ∀ df, fetch_ticker (w.tickerSrc p.2) = some df →
    1 < df.close.length → df.close.headD 0 ≠ 0

/-- A world where every external call raises. -/
def wFail : World := ⟨fun _ => .raises, fun _ => .raises⟩

/-- `w` with the quote fetch for ticker `t` failing. -/
def failQuote (w : World) (t : String) : World :=
  { w with quoteSrc := fun s => if s = t then .raises else w.quoteSrc s }

/-- `w` with the history download for ticker `t` failing. -/
def failTicker (w : World) (t : String) : World :=
  { w with tickerSrc := fun s => if s = t then .raises else w.tickerSrc s }

/-- A render that shows no data: blank axes, or the scorecard `"N/A"` text. -/
def Render.isPlaceholder : Render → Prop :=
  fun r => r = .blank ∨ r = .na

/-- The weighted numerator of the `adjust=True` exponential moving average:
`ewmNum c xs i = Σ_{j=0}^{i} c^j * xs[i-j]` with `c = 1 - α`. -/
def ewmNum (c : ℚ) (xs : List ℚ) (i : Nat) : ℚ :=
  ((List.range (i + 1)).map (fun j => c ^ j * xs.getD (i - j) 0)).sum

/-- The weight total of the `adjust=True` exponential moving average:
`ewmDen c i = Σ_{j=0}^{i} c^j`. -/
def ewmDen (c : ℚ) (i : Nat) : ℚ :=
  ((List.range (i + 1)).map (fun j => c ^ j)).sum

/-! ## Helper lemmas: rolling windows -/

theorem length_rollingMeanO (w : Nat) (xs : List (Option ℚ)) :
    (rollingMeanO w xs).length = xs.length := by
  simp [rollingMeanO]

theorem getElem?_rollingMeanO (w : Nat) (xs : List (Option ℚ)) (i : Nat)
    (hi : i < xs.length) :
    (rollingMeanO w xs)[i]? = some (
      if i + 1 < w then none
      else
        let win := (xs.take (i + 1)).drop (i + 1 - w)
        if win.all Option.isSome then some ((win.filterMap id).sum / w) else none) := by
  simp [rollingMeanO, List.getElem?_range hi]

theorem getElem?_rollingMeanO_map_some (w : Nat) (xs : List ℚ) (i : Nat)
    (hi : i < xs.length) :
    (rollingMeanO w (xs.map some))[i]? = some (
      if i + 1 < w then none
      else some (((xs.take (i + 1)).drop (i + 1 - w)).sum / w)) := by
  rw [getElem?_rollingMeanO w _ i (by simpa using hi)]
  by_cases h : i + 1 < w
  · simp [h]
  · have hwin : (List.take (i + 1) (List.map some xs)).drop (i + 1 - w)
        = ((List.take (i + 1) xs).drop (i + 1 - w)).map some := by
      rw [← List.map_take, ← List.map_drop]
    have hall : (((List.take (i + 1) xs).drop (i + 1 - w)).map some).all Option.isSome = true := by
      simp only [List.all_eq_true]
      intro o ho
      rcases List.mem_map.mp ho with ⟨x, _, rfl⟩
      rfl
    have hfm : List.filterMap id (((List.take (i + 1) xs).drop (i + 1 - w)).map some)
        = (List.take (i + 1) xs).drop (i + 1 - w) := by
      rw [List.filterMap_map]
      exact List.filterMap_some _
    simp only [h, if_false, hwin, hall, if_true, hfm]

theorem length_rollingVar (w : Nat) (xs : List ℚ) :
    (rollingVar w xs).length = xs.length := by
  simp [rollingVar]

theorem getElem?_rollingVar (w : Nat) (xs : List ℚ) (i : Nat)
    (hi : i < xs.length) :
    (rollingVar w xs)[i]? = some (
      if i + 1 < w then none
      else
        let win := (xs.take (i + 1)).drop (i + 1 - w)
        let m := win.sum / w
        some (((win.map (fun x => (x - m) ^ 2)).sum / ((w : ℚ) - 1)))) := by
  simp [rollingVar, List.getElem?_range hi]

theorem rollingMeanO_nonneg {w : Nat} {xs : List (Option ℚ)}
    (hxs : ∀ x : ℚ, some x ∈ xs → 0 ≤ x) {i : Nat} {g : ℚ}
    (h : (rollingMeanO w xs)[i]? = some (some g)) : 0 ≤ g := by
  have hi : i < xs.length := by
    by_contra hn
    rw [List.getElem?_eq_none (by rw [length_rollingMeanO]; omega)] at h
    exact Option.noConfusion h
  rw [getElem?_rollingMeanO w xs i hi] at h
  by_cases hw : i + 1 < w
  · simp [hw] at h
  · simp only [hw, if_false] at h
    by_cases hall : ((xs.take (i + 1)).drop (i + 1 - w)).all Option.isSome
    · simp only [hall, if_true, Option.some.injEq] at h
      subst h
      refine div_nonneg (List.sum_nonneg ?_) (by positivity)
      intro x hx
      rcases List.mem_filterMap.mp hx with ⟨o, ho, rfl⟩
      exact hxs x (List.mem_of_mem_take (List.mem_of_mem_drop ho))
    · simp [hall] at h

/-! ## Helper lemmas: exponential smoothing -/

theorem length_ewmAdjAux (c : ℚ) (xs : List ℚ) (n0 d0 : ℚ) :
    (ewmAdjAux c xs n0 d0).length = xs.length := by
  induction xs generalizing n0 d0 with
  | nil => rfl
  | cons x rest ih => simp [ewmAdjAux, ih]

theorem length_ewmAdj (alpha : ℚ) (xs : List ℚ) :
    (ewmAdj alpha xs).length = xs.length :=
  length_ewmAdjAux _ xs 0 0

theorem ewmNum_zero (c : ℚ) (xs : List ℚ) : ewmNum c xs 0 = xs.getD 0 0 := by
  simp [ewmNum, List.range_succ]

theorem ewmDen_zero (c : ℚ) : ewmDen c 0 = 1 := by
  simp [ewmDen, List.range_succ]

theorem ewmNum_cons (c x : ℚ) (rest : List ℚ) (i : Nat) :
    ewmNum c (x :: rest) (i + 1) = ewmNum c rest i + c ^ (i + 1) * x := by
  unfold ewmNum
  rw [List.range_succ, List.map_append, List.sum_append]
  congr 1
  · refine congrArg List.sum (List.map_congr_left ?_)
    intro j hj
    have hj' : j < i + 1 := List.mem_range.mp hj
    have hidx : i + 1 - j = (i - j) + 1 := by omega
    rw [hidx, List.getD_cons_succ]
  · simp

theorem ewmDen_succ (c : ℚ) (i : Nat) :
    ewmDen c (i + 1) = ewmDen c i + c ^ (i + 1) := by
  unfold ewmDen
  rw [List.range_succ, List.map_append, List.sum_append]
  simp

theorem getElem?_ewmAdjAux (c : ℚ) :
    ∀ (xs : List ℚ) (n0 d0 : ℚ) (i : Nat), i < xs.length →
    (ewmAdjAux c xs n0 d0)[i]? =
      some ((c ^ (i + 1) * n0 + ewmNum c xs i) / (c ^ (i + 1) * d0 + ewmDen c i))
  | [], _, _, i, h => by simp at h
  | x :: rest, n0, d0, 0, _ => by
    rw [ewmAdjAux]
    rw [List.getElem?_cons_zero, ewmNum_zero, ewmDen_zero]
    rw [List.getD_cons_zero]
    congr 1
    rw [pow_one]
    ring_nf
  | x :: rest, n0, d0, i + 1, h => by
    rw [ewmAdjAux, List.getElem?_cons_succ,
      getElem?_ewmAdjAux c rest (x + c * n0) (1 + c * d0) i
        (by simpa using Nat.lt_of_succ_lt_succ h),
      ewmNum_cons, ewmDen_succ]
    congr 1
    have hA : c ^ (i + 1) * (x + c * n0) + ewmNum c rest i
        = c ^ (i + 1 + 1) * n0 + (ewmNum c rest i + c ^ (i + 1) * x) := by ring
    have hB : c ^ (i + 1) * (1 + c * d0) + ewmDen c i
        = c ^ (i + 1 + 1) * d0 + (ewmDen c i + c ^ (i + 1)) := by ring
    rw [hA, hB]

theorem getElem?_ewmAdj (alpha : ℚ) (xs : List ℚ) (i : Nat) (hi : i < xs.length) :
    (ewmAdj alpha xs)[i]? = some (ewmNum (1 - alpha) xs i / ewmDen (1 - alpha) i) := by
  unfold ewmAdj
  rw [getElem?_ewmAdjAux (1 - alpha) xs 0 0 i hi]
  norm_num

/-! ## Helper lemmas: layout -/

theorem sectorLoop_val (w : World) (l : List (String × String))
    (h : ∀ p ∈ l, ∀ df, fetch_ticker (w.tickerSrc p.2) = some df →
      1 < df.close.length → df.close.headD 0 ≠ 0) :
    ∃ v, sectorLoop w l = .val v := by
  induction l with
  | nil => exact ⟨[], rfl⟩
  | cons p rest ih =>
    obtain ⟨v, hv⟩ := ih (fun q hq => h q (List.mem_cons_of_mem _ hq))
    obtain ⟨n, t⟩ := p
    rw [sectorLoop]
    cases hft : fetch_ticker (w.tickerSrc t) with
    | none => exact ⟨v, hv⟩
    | some df =>
      dsimp only
      by_cases hlen : df.close.length ≤ 1
      · rw [if_pos hlen]
        exact ⟨v, hv⟩
      · have hz : df.close.headD 0 ≠ 0 :=
          h (n, t) (List.mem_cons_self _ _) df hft (by omega)
        rw [if_neg hlen]
        simp only [if_neg hz, hv]
        exact ⟨_, rfl⟩

theorem assemble_pos (sq : ℚ → ℚ) (w : World) (sp : List (String × ℚ)) :
    (assemble sq
      (WATCHLIST.map (fun p => (p.1, fetch_quote p.2 (w.quoteSrc p.2))))
      (INDICES.map (fun p => (p.1, fetch_quote p.2 (w.quoteSrc p.2))))
      (fetch_ticker (w.tickerSrc "SPY")) (fetch_ticker (w.tickerSrc "AAPL"))
      (fetch_ticker (w.tickerSrc "TSLA")) (fetch_ticker (w.tickerSrc "NVDA"))
      sp).map Panel.pos = slots := rfl

theorem build_dashboard_val (sq : ℚ → ℚ) (w : World) (hw : sectorSafe w) :
    ∃ ps, build_dashboard sq w = .val ps ∧ ps.map Panel.pos = slots := by
  obtain ⟨v, hv⟩ := sectorLoop_val w SECTORS hw
  exact ⟨_, by rw [build_dashboard, hv], assemble_pos sq w v⟩

theorem slots_pairwise_disjoint : slots.Pairwise cellDisjoint := by
  decide

/-! ## Claim theorems -/

/-- C9. `fetch_quote` computes `change = current close - previous close` and
`percent change = change/previous * 100` from the two most recent
observations, and returns `None` for any history with fewer than two
observations. -/
theorem claim_C9 (t : String) (nm : Option String) (hist : List Bar) :
    (hist.length < 2 → fetch_quote t (.returns nm hist) = none) ∧
    (2 ≤ hist.length →
      (hist.getD (hist.length - 2) default).closeP ≠ 0 →
      fetch_quote t (.returns nm hist) = some
        { price := (hist.getD (hist.length - 1) default).closeP
          change := (hist.getD (hist.length - 1) default).closeP
                    - (hist.getD (hist.length - 2) default).closeP
          pct := ((hist.getD (hist.length - 1) default).closeP
                  - (hist.getD (hist.length - 2) default).closeP)
                 / (hist.getD (hist.length - 2) default).closeP * 100
          volume := (hist.getD (hist.length - 1) default).volumeB
          high := (hist.getD (hist.length - 1) default).highP
          low := (hist.getD (hist.length - 1) default).lowP
          name := nm.getD t }) := by
  constructor
  · intro h
    simp only [fetch_quote, fetch_quote_try, if_pos h]
  · intro h2 hz
    have hlt : ¬ hist.length < 2 := by omega
    simp only [fetch_quote, fetch_quote_try]
    rw [if_neg hlt, if_neg hz]

unseal Rat.add Rat.sub Rat.mul Rat.inv in
/-- Witness for C9 at a concrete two-row history. -/
theorem claim_C9_wit :
    fetch_quote "T" (.returns none [⟨10, 11, 9, 5⟩, ⟨12, 13, 8, 7⟩])
      = some { price := 12, change := 2, pct := 20,
               volume := 7, high := 13, low := 8, name := "T" } := by
  rw [(claim_C9 "T" none [⟨10, 11, 9, 5⟩, ⟨12, 13, 8, 7⟩]).2 (by decide) (by decide)]
  decide

/-- C10. A zero previous close makes the `chg / prev` division raise
`ZeroDivisionError` inside `fetch_quote`'s `try` block, and the blanket
handler converts it to `None`. -/
theorem claim_C10 (t : String) (nm : Option String) (hist : List Bar)
    (h2 : 2 ≤ hist.length)
    (h0 : (hist.getD (hist.length - 2) default).closeP = 0) :
    fetch_quote_try t (.returns nm hist) = .exc ∧
    fetch_quote t (.returns nm hist) = none := by
  have hlt : ¬ hist.length < 2 := by omega
  have htry : fetch_quote_try t (.returns nm hist) = .exc := by
    simp only [fetch_quote_try]
    rw [if_neg hlt, if_pos h0]
  refine ⟨htry, ?_⟩
  simp only [fetch_quote, htry]

unseal Rat.add Rat.sub Rat.mul Rat.inv in
/-- Witness for C10: a zero previous close on a two-row history. -/
theorem claim_C10_wit :
    fetch_quote_try "X" (.returns none [⟨0, 1, 0, 2⟩, ⟨3, 4, 2, 6⟩]) = .exc ∧
    fetch_quote "X" (.returns none [⟨0, 1, 0, 2⟩, ⟨3, 4, 2, 6⟩]) = none :=
  claim_C10 "X" none [⟨0, 1, 0, 2⟩, ⟨3, 4, 2, 6⟩] (by decide) (by decide)

/-- C2. Fetch failures become `None` at the point of occurrence: a raising
or empty download gives `fetch_ticker = none`, a raising quote interaction
gives `fetch_quote = none`, any exception in `fetch_quote`'s body is
absorbed, and `build_dashboard` still produces the full slot grid when the
quote fetch or the history fetch of any single instrument fails. -/
theorem claim_C2 :
    (fetch_ticker .raises = none) ∧
    (∀ df : Frame, df.close = [] → fetch_ticker (.returns df) = none) ∧
    (∀ t : String, fetch_quote t .raises = none) ∧
    (∀ (t : String) (src : QuoteSource),
      fetch_quote_try t src = .exc → fetch_quote t src = none) ∧
    (∀ (sq : ℚ → ℚ) (w : World) (t : String), sectorSafe w →
      ∃ ps, build_dashboard sq (failQuote w t) = .val ps ∧ ps.map Panel.pos = slots) ∧
    (∀ (sq : ℚ → ℚ) (w : World) (t : String), sectorSafe w →
      ∃ ps, build_dashboard sq (failTicker w t) = .val ps ∧ ps.map Panel.pos = slots) := by
  refine ⟨rfl, ?_, fun _ => rfl, ?_, ?_, ?_⟩
  · intro df h
    simp [fetch_ticker, h]
  · intro t src h
    simp [fetch_quote, h]
  · intro sq w t hw
    exact build_dashboard_val sq (failQuote w t) hw
  · intro sq w t hw
    refine build_dashboard_val sq (failTicker w t) ?_
    intro p hp df hdf
    by_cases hc : p.2 = t
    · simp [failTicker, hc, fetch_ticker] at hdf
    · refine hw p hp df ?_
      simpa [failTicker, hc] using hdf

/-- Witness for C2: an empty frame, an absorbed exception, and a full grid
with the AAPL quote fetch failing in the all-fail world. -/
theorem claim_C2_wit :
    fetch_ticker (.returns ⟨[], []⟩) = none ∧
    fetch_quote "AAPL" .raises = none ∧
    ∃ ps, build_dashboard (fun q => q) (failQuote wFail "AAPL") = .val ps ∧
      ps.map Panel.pos = slots := by
  refine ⟨claim_C2.2.1 ⟨[], []⟩ rfl, claim_C2.2.2.1 "AAPL",
    claim_C2.2.2.2.2.1 (fun q => q) wFail "AAPL" ?_⟩
  intro p hp df hdf
  simp [wFail, fetch_ticker] at hdf

/-- C7. The ranking is idempotent: re-ranking the `(label, value)` pairs of
an already-ranked group reproduces exactly the same order. -/
theorem claim_C7 (pairs : List (String × ℚ)) :
    rankTriples ((rankTriples pairs).map (fun t => (t.2.1, t.1))) = rankTriples pairs := by
  have hmem : ∀ t ∈ rankTriples pairs, t.2.2 = colorOf t.1 := by
    intro t ht
    have ht' : t ∈ pairs.map (fun p => (p.2, p.1, colorOf p.2)) :=
      (List.perm_insertionSort pyLe _).mem_iff.mp ht
    rcases List.mem_map.mp ht' with ⟨p, _, rfl⟩
    rfl
  have hback : ((rankTriples pairs).map (fun t => (t.2.1, t.1))).map
      (fun p => (p.2, p.1, colorOf p.2)) = rankTriples pairs := by
    rw [List.map_map]
    have hpt : ∀ t ∈ rankTriples pairs,
        ((fun p : String × ℚ => (p.2, p.1, colorOf p.2)) ∘
          (fun t : ℚ × String × String => (t.2.1, t.1))) t = id t := by
      intro t ht
      obtain ⟨v, n, c⟩ := t
      have hc := hmem _ ht
      simp only [Function.comp_apply, id_eq]
      simp only at hc
      rw [hc]
    rw [List.map_congr_left hpt, List.map_id]
  show pySorted (((rankTriples pairs).map (fun t => (t.2.1, t.1))).map
      (fun p => (p.2, p.1, colorOf p.2))) = rankTriples pairs
  rw [hback]
  exact List.Sorted.insertionSort_eq (List.sorted_insertionSort pyLe _)

/-- Counterexample to C6 as stated: with a tie `{C: 6/5, A: 6/5}` given in
input order `C, A`, the produced ranking lists `A` before `C` — Python sorts
the whole `(value, name, color)` tuple, so ties are broken by the label, not
by input order. -/
theorem claim_C6_cex :
    (rankQuotes [("C", some ⟨1, 1, 6/5, 0, 0, 0, "C"⟩),
                 ("A", some ⟨1, 1, 6/5, 0, 0, 0, "A"⟩)]).map (fun t => t.2.1)
      = ["A", "C"] ∧ ("A" : String) ≠ "C" := by
  have hCA : ¬ pyLe (6/5, "C", colorOf (6/5)) (6/5, "A", colorOf (6/5)) := by
    intro h
    rcases (Prod.Lex.le_iff _ _).mp h with h1 | ⟨_, h2⟩
    · exact lt_irrefl _ h1
    · rcases (Prod.Lex.le_iff _ _).mp h2 with h3 | ⟨h4, _⟩
      · exact absurd (String.lt_iff_toList_lt.mp h3) (by decide)
      · exact absurd h4 (by decide)
  refine ⟨?_, by decide⟩
  have hsort : rankQuotes [("C", some ⟨1, 1, 6/5, 0, 0, 0, "C"⟩),
      ("A", some ⟨1, 1, 6/5, 0, 0, 0, "A"⟩)]
      = [(6/5, "A", colorOf (6/5)), (6/5, "C", colorOf (6/5))] := by
    show List.insertionSort pyLe
      [(6/5, "C", colorOf (6/5)), (6/5, "A", colorOf (6/5))] = _
    simp only [List.insertionSort, List.orderedInsert]
    rw [if_neg hCA]
  rw [hsort]
  rfl

/-- C6 (amended). The ranking filters out `None` members, sorts ascending by
the metric value, returns an empty ranking when every member is unavailable,
and orders equal metric values by the rest of the Python tuple — i.e. by
label, not by original input position. -/
theorem claim_C6 (quotes : List (String × Option Quote)) :
    List.Perm (rankQuotes quotes) ((winnersOf quotes).map (fun p => (p.2, p.1, colorOf p.2))) ∧
    (rankQuotes quotes).Sorted pyLe ∧
    (rankQuotes quotes).Sorted (fun a b => a.1 ≤ b.1) ∧
    ((∀ p ∈ quotes, p.2 = none) → rankQuotes quotes = []) := by
  refine ⟨List.perm_insertionSort pyLe _, List.sorted_insertionSort pyLe _, ?_, ?_⟩
  · refine (List.sorted_insertionSort pyLe _).imp ?_
    intro a b hab
    rcases (Prod.Lex.le_iff _ _).mp hab with hlt | ⟨heq, _⟩
    · exact le_of_lt hlt
    · exact le_of_eq heq
  · intro hall
    have hw : winnersOf quotes = [] := by
      unfold winnersOf
      rw [List.filterMap_eq_nil_iff]
      intro p hp
      rw [hall p hp]
      rfl
    show pySorted ((winnersOf quotes).map (fun p => (p.2, p.1, colorOf p.2))) = []
    rw [hw]
    rfl

/-- Witness for C6 at an all-unavailable group. -/
theorem claim_C6_wit :
    rankQuotes [("Apple", none), ("Tesla", none)] = [] :=
  (claim_C6 [("Apple", none), ("Tesla", none)]).2.2.2 (by decide)

unseal Rat.add Rat.sub Rat.mul Rat.inv in
/-- Counterexample to C5 as stated: on the close series `[0, 1]` the code's
`EMA12` (pandas `ewm(span=12).mean()` with the default `adjust=True`) has
entry `13/24` at index 1, not the `α·close[1] + (1-α)·EMA[0] = 2/13` the
recursive smoothing of the claim would give. -/
theorem claim_C5_cex :
    (add_indicators (fun q => q) ⟨[0, 1], [0, 0]⟩).ema12[0]? = some 0 ∧
    (add_indicators (fun q => q) ⟨[0, 1], [0, 0]⟩).ema12[1]? = some (13 / 24) ∧
    (13 : ℚ) / 24 ≠ 2 / 13 * 1 + (1 - 2 / 13) * 0 := by
  refine ⟨by decide, by decide, by decide⟩

/-- C5 (amended). The EMA columns are the pandas `adjust=True` weighted
averages: `EMA[i] = (Σ_j (1-α)^j close[i-j]) / (Σ_j (1-α)^j)` with
`α = 2/(span+1)`; they are seeded with `EMA[0] = close[0]` and are defined
from the first sample onward with no leading gap. -/
theorem claim_C5 (sq : ℚ → ℚ) (f : Frame) :
    (add_indicators sq f).ema12.length = f.close.length ∧
    (add_indicators sq f).ema26.length = f.close.length ∧
    (0 < f.close.length →
      (add_indicators sq f).ema12[0]? = some (f.close.getD 0 0) ∧
      (add_indicators sq f).ema26[0]? = some (f.close.getD 0 0)) ∧
    (∀ i < f.close.length,
      (add_indicators sq f).ema12[i]? =
        some (ewmNum (1 - 2 / (12 + 1)) f.close i / ewmDen (1 - 2 / (12 + 1)) i) ∧
      (add_indicators sq f).ema26[i]? =
        some (ewmNum (1 - 2 / (26 + 1)) f.close i / ewmDen (1 - 2 / (26 + 1)) i)) := by
  have h12 : (add_indicators sq f).ema12 = ewmAdj (2 / (12 + 1)) f.close := rfl
  have h26 : (add_indicators sq f).ema26 = ewmAdj (2 / (26 + 1)) f.close := rfl
  refine ⟨by rw [h12]; exact length_ewmAdj _ _,
    by rw [h26]; exact length_ewmAdj _ _, ?_, ?_⟩
  · intro h0
    constructor
    · rw [h12, getElem?_ewmAdj _ _ 0 h0, ewmNum_zero, ewmDen_zero, div_one]
    · rw [h26, getElem?_ewmAdj _ _ 0 h0, ewmNum_zero, ewmDen_zero, div_one]
  · intro i hi
    exact ⟨by rw [h12]; exact getElem?_ewmAdj _ _ i hi,
      by rw [h26]; exact getElem?_ewmAdj _ _ i hi⟩

/-- Witness for C5 on the close series `[0, 1]` at index 1. -/
theorem claim_C5_wit :
    (add_indicators (fun q => q) ⟨[0, 1], [0, 0]⟩).ema12[1]? =
      some (ewmNum (1 - 2 / (12 + 1)) [0, 1] 1 / ewmDen (1 - 2 / (12 + 1)) 1) :=
  ((claim_C5 (fun q => q) ⟨[0, 1], [0, 0]⟩).2.2.2 1 (by decide)).1

/-- C8. `MACD = EMA12 - EMA26` pointwise, `Signal` is the 9-span (pandas)
EMA of MACD, and every MACD histogram bar `MACD - Signal` is coloured with
the upward colour exactly when it is non-negative. -/
theorem claim_C8 (sq : ℚ → ℚ) (f : Frame) :
    (add_indicators sq f).macd =
      List.zipWith (fun a b => a - b) (add_indicators sq f).ema12
        (add_indicators sq f).ema26 ∧
    (add_indicators sq f).signal = ewmAdj (2 / (9 + 1)) (add_indicators sq f).macd ∧
    (∀ (i : Nat) (v : ℚ), (List.zipWith (fun a b => a - b) (add_indicators sq f).macd
        (add_indicators sq f).signal)[i]? = some v →
      (macdColors (add_indicators sq f))[i]? = some (if 0 ≤ v then GREEN else RED)) := by
  refine ⟨rfl, rfl, ?_⟩
  intro i v h
  unfold macdColors
  rw [List.getElem?_map, h]
  simp [colorOf]

unseal Rat.add Rat.sub Rat.mul Rat.inv in
/-- Witness for C8 on the constant close series `[1, 1]` at index 0. -/
theorem claim_C8_wit :
    (macdColors (add_indicators (fun q => q) ⟨[1, 1], [0, 0]⟩))[0]? =
      some (if (0 : ℚ) ≤ 0 then GREEN else RED) :=
  (claim_C8 (fun q => q) ⟨[1, 1], [0, 0]⟩).2.2 0 0 (by decide)

/-- Every value that appears under `some` in the clipped-difference columns
is non-negative. -/
theorem clip_mem_nonneg (close : List ℚ) (clip : ℚ → ℚ)
    (hclip : ∀ d, 0 ≤ clip d) (y : ℚ)
    (hy : some y ∈ (diffO close).map (Option.map clip)) : 0 ≤ y := by
  rcases List.mem_map.mp hy with ⟨o, _, ho⟩
  cases o with
  | none => simp at ho
  | some d =>
    simp only [Option.map_some'] at ho
    obtain rfl : clip d = y := Option.some.inj ho
    exact hclip d

/-- C4. Wherever the RSI column is defined its value lies in `[0, 100]`, and
it is exactly `100 - 100/(1 + avgGain/(avgLoss + ε))` with `ε = 10⁻⁶`, where
`avgGain`/`avgLoss` are the rolling 14-means of the clipped daily
differences — the `ε` keeps the denominator positive even when `avgLoss` is
exactly zero. -/
theorem claim_C4 (sq : ℚ → ℚ) (f : Frame) (i : Nat) (x : ℚ)
    (h : (add_indicators sq f).rsi[i]? = some (some x)) :
    (0 ≤ x ∧ x ≤ 100) ∧
    ∃ g l, 0 ≤ g ∧ 0 ≤ l ∧
      (gainCol f.close)[i]? = some (some g) ∧
      (lossCol f.close)[i]? = some (some l) ∧
      x = 100 - 100 / (1 + g / (l + 1 / 1000000)) := by
  have hrsi : (add_indicators sq f).rsi = List.zipWith (fun g l =>
      match g, l with
      | some g, some l => some (100 - 100 / (1 + g / (l + 1 / 1000000)))
      | _, _ => none) (gainCol f.close) (lossCol f.close) := rfl
  rw [hrsi, List.getElem?_zipWith_eq_some] at h
  obtain ⟨og, ol, hog, hol, hmatch⟩ := h
  cases og with
  | none => cases ol <;> simp at hmatch
  | some g =>
    cases ol with
    | none => simp at hmatch
    | some l =>
      have hmx : 100 - 100 / (1 + g / (l + 1 / 1000000)) = x :=
        Option.some.inj hmatch
      have hg : 0 ≤ g :=
        rollingMeanO_nonneg
          (clip_mem_nonneg f.close _ (fun d => le_max_right d 0)) hog
      have hl : 0 ≤ l :=
        rollingMeanO_nonneg
          (clip_mem_nonneg f.close _ (fun d => le_max_right (-d) 0)) hol
      have hden : (0:ℚ) < l + 1 / 1000000 := by
        have : (0:ℚ) < 1 / 1000000 := by norm_num
        linarith
      have hr : (0:ℚ) ≤ g / (l + 1 / 1000000) := div_nonneg hg hden.le
      have h1r : (1:ℚ) ≤ 1 + g / (l + 1 / 1000000) := by linarith
      have hq1 : (100:ℚ) / (1 + g / (l + 1 / 1000000)) ≤ 100 :=
        div_le_self (by norm_num) h1r
      have hq0 : (0:ℚ) ≤ 100 / (1 + g / (l + 1 / 1000000)) :=
        div_nonneg (by norm_num) (by linarith)
      refine ⟨⟨by linarith, by linarith⟩, g, l, hg, hl, hog, hol, hmx.symm⟩

unseal Rat.add Rat.sub Rat.mul Rat.inv in
/-- Witness for C4 on the strictly rising series `0, 1, …, 14`: at index 14
the RSI is defined and equals `100 - 100/(1 + 1/ε) = 100000000/1000001`. -/
theorem claim_C4_wit :
    ((0:ℚ) ≤ 100000000 / 1000001 ∧ (100000000 / 1000001 : ℚ) ≤ 100) ∧
    ∃ g l, 0 ≤ g ∧ 0 ≤ l ∧
      (gainCol [0, 1, 2, 3, 4, 5, 6, 7, 8, 9, 10, 11, 12, 13, 14])[14]?
        = some (some g) ∧
      (lossCol [0, 1, 2, 3, 4, 5, 6, 7, 8, 9, 10, 11, 12, 13, 14])[14]?
        = some (some l) ∧
      (100000000 / 1000001 : ℚ) = 100 - 100 / (1 + g / (l + 1 / 1000000)) :=
  claim_C4 (fun q => q)
    ⟨[0, 1, 2, 3, 4, 5, 6, 7, 8, 9, 10, 11, 12, 13, 14],
     [0, 0, 0, 0, 0, 0, 0, 0, 0, 0, 0, 0, 0, 0, 0]⟩ 14
    (100000000 / 1000001) (by decide)

/-- C3. On a series of length `n < 20` the `MA20` and Bollinger columns are
entirely absent; for `n ≥ 20` the first 19 entries are absent and from index
19 on they are defined, with `BB_up = BB_mid + 2·std` and
`BB_lo = BB_mid - 2·std`.  `add_indicators` is total, producing columns of
length `n` for every input (no exception on short series). -/
theorem claim_C3 (sq : ℚ → ℚ) (f : Frame) :
    ((add_indicators sq f).ma20.length = f.close.length ∧
     (add_indicators sq f).bbMid.length = f.close.length ∧
     (add_indicators sq f).bbUp.length = f.close.length ∧
     (add_indicators sq f).bbLo.length = f.close.length) ∧
    (f.close.length < 20 →
      (∀ o ∈ (add_indicators sq f).ma20, o = none) ∧
      (∀ o ∈ (add_indicators sq f).bbMid, o = none) ∧
      (∀ o ∈ (add_indicators sq f).bbUp, o = none) ∧
      (∀ o ∈ (add_indicators sq f).bbLo, o = none)) ∧
    (20 ≤ f.close.length → ∀ i < f.close.length,
      (i < 19 →
        (add_indicators sq f).ma20[i]? = some none ∧
        (add_indicators sq f).bbMid[i]? = some none ∧
        (add_indicators sq f).bbUp[i]? = some none ∧
        (add_indicators sq f).bbLo[i]? = some none) ∧
      (19 ≤ i → ∃ m s,
        (add_indicators sq f).ma20[i]? = some (some m) ∧
        (add_indicators sq f).bbMid[i]? = some (some m) ∧
        (add_indicators sq f).bbStd[i]? = some (some s) ∧
        (add_indicators sq f).bbUp[i]? = some (some (m + 2 * s)) ∧
        (add_indicators sq f).bbLo[i]? = some (some (m - 2 * s)))) := by
  have hma : (add_indicators sq f).ma20 = rollingMeanO 20 (f.close.map some) := rfl
  have hmid : (add_indicators sq f).bbMid = rollingMeanO 20 (f.close.map some) := rfl
  have hstd : (add_indicators sq f).bbStd
      = (rollingVar 20 f.close).map (Option.map sq) := rfl
  have hup : (add_indicators sq f).bbUp
      = List.zipWith (fun m s =>
          match m, s with
          | some m, some s => some (m + 2 * s)
          | _, _ => none) (add_indicators sq f).bbMid (add_indicators sq f).bbStd := rfl
  have hlo : (add_indicators sq f).bbLo
      = List.zipWith (fun m s =>
          match m, s with
          | some m, some s => some (m - 2 * s)
          | _, _ => none) (add_indicators sq f).bbMid (add_indicators sq f).bbStd := rfl
  have lma : (add_indicators sq f).ma20.length = f.close.length := by
    rw [hma, length_rollingMeanO, List.length_map]
  have lmid : (add_indicators sq f).bbMid.length = f.close.length := lma
  have lstd : (add_indicators sq f).bbStd.length = f.close.length := by
    rw [hstd, List.length_map, length_rollingVar]
  have lup : (add_indicators sq f).bbUp.length = f.close.length := by
    rw [hup, List.length_zipWith, lmid, lstd, Nat.min_self]
  have llo : (add_indicators sq f).bbLo.length = f.close.length := by
    rw [hlo, List.length_zipWith, lmid, lstd, Nat.min_self]
  have fact1 : ∀ i : Nat, i < f.close.length → i + 1 < 20 →
      (add_indicators sq f).ma20[i]? = some none ∧
      (add_indicators sq f).bbMid[i]? = some none ∧
      (add_indicators sq f).bbStd[i]? = some none ∧
      (add_indicators sq f).bbUp[i]? = some none ∧
      (add_indicators sq f).bbLo[i]? = some none := by
    intro i hi hw
    have h1 : (add_indicators sq f).ma20[i]? = some none := by
      rw [hma, getElem?_rollingMeanO_map_some 20 _ i hi, if_pos hw]
    have h2 : (add_indicators sq f).bbMid[i]? = some none := h1
    have h3 : (add_indicators sq f).bbStd[i]? = some none := by
      rw [hstd, List.getElem?_map, getElem?_rollingVar 20 _ i hi, if_pos hw]
      rfl
    refine ⟨h1, h2, h3, ?_, ?_⟩
    · rw [hup, List.getElem?_zipWith, h2, h3]
    · rw [hlo, List.getElem?_zipWith, h2, h3]
  have fact2 : ∀ i : Nat, i < f.close.length → ¬ i + 1 < 20 →
      ∃ m s,
        (add_indicators sq f).ma20[i]? = some (some m) ∧
        (add_indicators sq f).bbMid[i]? = some (some m) ∧
        (add_indicators sq f).bbStd[i]? = some (some s) ∧
        (add_indicators sq f).bbUp[i]? = some (some (m + 2 * s)) ∧
        (add_indicators sq f).bbLo[i]? = some (some (m - 2 * s)) := by
    intro i hi hw
    obtain ⟨m, hmam⟩ : ∃ m, (add_indicators sq f).ma20[i]? = some (some m) := by
      rw [hma, getElem?_rollingMeanO_map_some 20 _ i hi, if_neg hw]
      exact ⟨_, rfl⟩
    have hmidm : (add_indicators sq f).bbMid[i]? = some (some m) := hmam
    obtain ⟨s, hstdm⟩ : ∃ s, (add_indicators sq f).bbStd[i]? = some (some s) := by
      rw [hstd, List.getElem?_map, getElem?_rollingVar 20 _ i hi, if_neg hw]
      exact ⟨_, rfl⟩
    refine ⟨m, s, hmam, hmidm, hstdm, ?_, ?_⟩
    · rw [hup, List.getElem?_zipWith, hmidm, hstdm]
    · rw [hlo, List.getElem?_zipWith, hmidm, hstdm]
  have habs : ∀ col : List (Option ℚ), col.length = f.close.length →
      (∀ i : Nat, i < f.close.length → i + 1 < 20 → col[i]? = some none) →
      f.close.length < 20 → ∀ o ∈ col, o = none := by
    intro col hlen hcol h20 o ho
    obtain ⟨i, hio⟩ := List.mem_iff_getElem?.mp ho
    have hi : i < col.length := (List.getElem?_eq_some.mp hio).1
    rw [hlen] at hi
    rw [hcol i hi (by omega)] at hio
    exact (Option.some.inj hio).symm
  refine ⟨⟨lma, lmid, lup, llo⟩, ?_, ?_⟩
  · intro h20
    exact ⟨habs _ lma (fun i hi hw => (fact1 i hi hw).1) h20,
      habs _ lmid (fun i hi hw => (fact1 i hi hw).2.1) h20,
      habs _ lup (fun i hi hw => (fact1 i hi hw).2.2.2.1) h20,
      habs _ llo (fun i hi hw => (fact1 i hi hw).2.2.2.2) h20⟩
  · intro _ i hi
    exact ⟨fun h19 =>
      ⟨(fact1 i hi (by omega)).1, (fact1 i hi (by omega)).2.1,
       (fact1 i hi (by omega)).2.2.2.1, (fact1 i hi (by omega)).2.2.2.2⟩,
      fun h19 => fact2 i hi (by omega)⟩

unseal Rat.add Rat.sub Rat.mul Rat.inv in
/-- Witness for C3 on the series `0, 1, …, 20` (21 samples) at index 19. -/
theorem claim_C3_wit :
    ∃ m s,
      (add_indicators (fun q => q)
        ⟨[0, 1, 2, 3, 4, 5, 6, 7, 8, 9, 10, 11, 12, 13, 14, 15, 16, 17, 18, 19, 20],
         []⟩).ma20[19]? = some (some m) ∧
      (add_indicators (fun q => q)
        ⟨[0, 1, 2, 3, 4, 5, 6, 7, 8, 9, 10, 11, 12, 13, 14, 15, 16, 17, 18, 19, 20],
         []⟩).bbMid[19]? = some (some m) ∧
      (add_indicators (fun q => q)
        ⟨[0, 1, 2, 3, 4, 5, 6, 7, 8, 9, 10, 11, 12, 13, 14, 15, 16, 17, 18, 19, 20],
         []⟩).bbStd[19]? = some (some s) ∧
      (add_indicators (fun q => q)
        ⟨[0, 1, 2, 3, 4, 5, 6, 7, 8, 9, 10, 11, 12, 13, 14, 15, 16, 17, 18, 19, 20],
         []⟩).bbUp[19]? = some (some (m + 2 * s)) ∧
      (add_indicators (fun q => q)
        ⟨[0, 1, 2, 3, 4, 5, 6, 7, 8, 9, 10, 11, 12, 13, 14, 15, 16, 17, 18, 19, 20],
         []⟩).bbLo[19]? = some (some (m - 2 * s)) :=
  ((claim_C3 (fun q => q)
      ⟨[0, 1, 2, 3, 4, 5, 6, 7, 8, 9, 10, 11, 12, 13, 14, 15, 16, 17, 18, 19, 20],
       []⟩).2.2 (by decide) 19 (by decide)).2 (by decide)

/-- When every sector download fails, the sector loop yields the empty
performance mapping (and no exception). -/
theorem sectorLoop_all_none (w : World) (l : List (String × String))
    (h : ∀ p ∈ l, fetch_ticker (w.tickerSrc p.2) = none) :
    sectorLoop w l = .val [] := by
  induction l with
  | nil => rfl
  | cons p rest ih =>
    obtain ⟨n, t⟩ := p
    rw [sectorLoop, h (n, t) (List.mem_cons_self _ _)]
    exact ih (fun q hq => h q (List.mem_cons_of_mem _ hq))

/-- C1. For every fetch-failure pattern (all of them included), the grid has
exactly one panel per configured slot, in the configured positions, with no
two panels overlapping grid cells; and every slot whose data dependency is
absent is rendered as a placeholder (`na` for scorecards, blank axes for
charts and bar panels), never omitted. -/
theorem claim_C1 (sq : ℚ → ℚ) (w : World) (hw : sectorSafe w) :
    ∃ ps, build_dashboard sq w = .val ps ∧
      ps.length = 20 ∧
      ps.map Panel.pos = slots ∧
      ps.Pairwise (fun p q => cellDisjoint p.pos q.pos) ∧
      (fetch_ticker (w.tickerSrc "SPY") = none →
        ps[0]? = some ⟨0, 0, 3, .blank⟩ ∧
        ps[1]? = some ⟨1, 0, 3, .blank⟩ ∧
        ps[2]? = some ⟨2, 0, 3, .blank⟩) ∧
      (fetch_quote "^GSPC" (w.quoteSrc "^GSPC") = none → ps[3]? = some ⟨0, 3, 4, .na⟩) ∧
      (fetch_quote "^IXIC" (w.quoteSrc "^IXIC") = none → ps[4]? = some ⟨0, 4, 5, .na⟩) ∧
      (fetch_quote "^DJI" (w.quoteSrc "^DJI") = none → ps[5]? = some ⟨0, 5, 6, .na⟩) ∧
      (fetch_quote "^VIX" (w.quoteSrc "^VIX") = none → ps[6]? = some ⟨0, 6, 7, .na⟩) ∧
      (fetch_quote "AAPL" (w.quoteSrc "AAPL") = none → ps[7]? = some ⟨1, 4, 5, .na⟩) ∧
      (fetch_quote "MSFT" (w.quoteSrc "MSFT") = none → ps[8]? = some ⟨1, 5, 6, .na⟩) ∧
      (fetch_quote "NVDA" (w.quoteSrc "NVDA") = none → ps[9]? = some ⟨1, 6, 7, .na⟩) ∧
      (fetch_quote "AMZN" (w.quoteSrc "AMZN") = none → ps[10]? = some ⟨1, 7, 8, .na⟩) ∧
      (fetch_quote "GOOGL" (w.quoteSrc "GOOGL") = none → ps[11]? = some ⟨2, 4, 5, .na⟩) ∧
      (fetch_quote "TSLA" (w.quoteSrc "TSLA") = none → ps[12]? = some ⟨2, 5, 6, .na⟩) ∧
      (fetch_quote "META" (w.quoteSrc "META") = none → ps[13]? = some ⟨2, 6, 7, .na⟩) ∧
      (fetch_quote "NFLX" (w.quoteSrc "NFLX") = none → ps[14]? = some ⟨2, 7, 8, .na⟩) ∧
      ((∀ p ∈ SECTORS, fetch_ticker (w.tickerSrc p.2) = none) →
        ps[15]? = some ⟨3, 0, 4, .blank⟩) ∧
      (fetch_ticker (w.tickerSrc "AAPL") = none → ps[16]? = some ⟨3, 4, 6, .blank⟩) ∧
      (fetch_ticker (w.tickerSrc "TSLA") = none → ps[17]? = some ⟨3, 6, 8, .blank⟩) ∧
      (fetch_ticker (w.tickerSrc "NVDA") = none → ps[18]? = some ⟨4, 0, 4, .blank⟩) ∧
      ((∀ p ∈ WATCHLIST, fetch_quote p.2 (w.quoteSrc p.2) = none) →
        ps[19]? = some ⟨4, 4, 8, .blank⟩) := by
  obtain ⟨v, hv⟩ := sectorLoop_val w SECTORS hw
  have hbd : build_dashboard sq w = .val (assemble sq
      (WATCHLIST.map (fun p => (p.1, fetch_quote p.2 (w.quoteSrc p.2))))
      (INDICES.map (fun p => (p.1, fetch_quote p.2 (w.quoteSrc p.2))))
      (fetch_ticker (w.tickerSrc "SPY")) (fetch_ticker (w.tickerSrc "AAPL"))
      (fetch_ticker (w.tickerSrc "TSLA")) (fetch_ticker (w.tickerSrc "NVDA"))
      v) := by
    rw [build_dashboard, hv]
  have hpos := assemble_pos sq w v
  have hpair := List.pairwise_map.mp (hpos.symm ▸ slots_pairwise_disjoint)
  have hq8 : WATCHLIST.map (fun p => (p.1, fetch_quote p.2 (w.quoteSrc p.2)))
      = [("Apple", fetch_quote "AAPL" (w.quoteSrc "AAPL")),
         ("Microsoft", fetch_quote "MSFT" (w.quoteSrc "MSFT")),
         ("NVIDIA", fetch_quote "NVDA" (w.quoteSrc "NVDA")),
         ("Amazon", fetch_quote "AMZN" (w.quoteSrc "AMZN")),
         ("Google", fetch_quote "GOOGL" (w.quoteSrc "GOOGL")),
         ("Tesla", fetch_quote "TSLA" (w.quoteSrc "TSLA")),
         ("Meta", fetch_quote "META" (w.quoteSrc "META")),
         ("Netflix", fetch_quote "NFLX" (w.quoteSrc "NFLX"))] := rfl
  have hq4 : INDICES.map (fun p => (p.1, fetch_quote p.2 (w.quoteSrc p.2)))
      = [("S&P 500", fetch_quote "^GSPC" (w.quoteSrc "^GSPC")),
         ("NASDAQ", fetch_quote "^IXIC" (w.quoteSrc "^IXIC")),
         ("Dow Jones", fetch_quote "^DJI" (w.quoteSrc "^DJI")),
         ("VIX", fetch_quote "^VIX" (w.quoteSrc "^VIX"))] := rfl
  refine ⟨_, hbd, rfl, hpos, hpair,
    ?_, ?_, ?_, ?_, ?_, ?_, ?_, ?_, ?_, ?_, ?_, ?_, ?_, ?_, ?_, ?_, ?_, ?_⟩
  · intro h
    refine ⟨?_, ?_, ?_⟩ <;> (rw [h]; rfl)
  · intro h
    rw [hq4, h]
    rfl
  · intro h
    rw [hq4, h]
    rfl
  · intro h
    rw [hq4, h]
    rfl
  · intro h
    rw [hq4, h]
    rfl
  · intro h
    rw [hq8, h]
    rfl
  · intro h
    rw [hq8, h]
    rfl
  · intro h
    rw [hq8, h]
    rfl
  · intro h
    rw [hq8, h]
    rfl
  · intro h
    rw [hq8, h]
    rfl
  · intro h
    rw [hq8, h]
    rfl
  · intro h
    rw [hq8, h]
    rfl
  · intro h
    rw [hq8, h]
    rfl
  · intro hall
    have hz := sectorLoop_all_none w SECTORS hall
    have hveq : v = [] := by
      have h2 := hv.symm.trans hz
      injection h2
    subst hveq
    rfl
  · intro h
    rw [h]
    rfl
  · intro h
    rw [h]
    rfl
  · intro h
    rw [h]
    rfl
  · intro hq
    have h1 : fetch_quote "AAPL" (w.quoteSrc "AAPL") = none :=
      hq ("Apple", "AAPL") (by decide)
    have h2 : fetch_quote "MSFT" (w.quoteSrc "MSFT") = none :=
      hq ("Microsoft", "MSFT") (by decide)
    have h3 : fetch_quote "NVDA" (w.quoteSrc "NVDA") = none :=
      hq ("NVIDIA", "NVDA") (by decide)
    have h4 : fetch_quote "AMZN" (w.quoteSrc "AMZN") = none :=
      hq ("Amazon", "AMZN") (by decide)
    have h5 : fetch_quote "GOOGL" (w.quoteSrc "GOOGL") = none :=
      hq ("Google", "GOOGL") (by decide)
    have h6 : fetch_quote "TSLA" (w.quoteSrc "TSLA") = none :=
      hq ("Tesla", "TSLA") (by decide)
    have h7 : fetch_quote "META" (w.quoteSrc "META") = none :=
      hq ("Meta", "META") (by decide)
    have h8 : fetch_quote "NFLX" (w.quoteSrc "NFLX") = none :=
      hq ("Netflix", "NFLX") (by decide)
    rw [hq8, h1, h2, h3, h4, h5, h6, h7, h8]
    rfl

/-- Witness for C1: in the world where every fetch raises, the dashboard is
still produced with all twenty slots filled. -/
theorem claim_C1_wit :
    ∃ ps, build_dashboard (fun q => q) wFail = .val ps ∧
      ps.length = 20 ∧ ps.map Panel.pos = slots := by
  obtain ⟨ps, h1, h2, h3, _⟩ := claim_C1 (fun q => q) wFail (by
    intro p hp df hdf
    simp [wFail, fetch_ticker] at hdf)
  exact ⟨ps, h1, h2, h3⟩

end StockDashboard
